import Mathlib

/-
Verification development for the CSI dynamic plugin lifecycle manager
(package csimanager, manager.go).

The manager keeps a table mapping plugin type ("csi-controller" / "csi-node")
and plugin name to an ordered group of instance managers (front = most
recently confirmed).  We embed the table as an association list keyed by the
pair (ptype, name); the front of a group is the head of its list.  Go map
semantics (unique keys, lookup with zero value) are reproduced by
`lookupGroup` / `updateGroup` / `hasKey` below.

Machine state tracked alongside the table:
  - `nextId` / `started`: every call of `mgr.run()` on a freshly built
    instance manager is recorded by allocating a fresh id and consing it to
    `started`;
  - `stopped`: every call of `instance.shutdown()` (which blocks until the
    stop completes) is recorded by consing the instance's id;
  - `loopExited`: whether `runLoop` has returned (after `close(shutdownCh)`).
-/

/-- Plugin descriptor as delivered by the dynamic registry
(`dynamicplugins.PluginInfo`): logical name, plugin type (role), the owning
allocation's id, and opaque connection metadata (modelled as a number). -/
structure PluginInfo where
  name : String
  ptype : String
  allocID : String
  connectionInfo : Nat
deriving DecidableEq

instance : DecidableEq (Except String Nat) := fun a b =>
  match a, b with
  | Except.error x, Except.error y =>
    if h : x = y then isTrue (by rw [h]) else isFalse (fun hc => by cases hc; exact h rfl)
  | Except.error _, Except.ok _ => isFalse (fun hc => by cases hc)
  | Except.ok _, Except.error _ => isFalse (fun hc => by cases hc)
  | Except.ok x, Except.ok y =>
    if h : x = y then isTrue (by rw [h]) else isFalse (fun hc => by cases hc; exact h rfl)

/-- Modelled from the spec: the per-instance worker (`instanceManager`, whose
source file is not part of this extract).  Per the spec's Instance Worker
contract it carries read-only fields `ownerID` (here `allocID`, copied from the
descriptor it was created from) and the descriptor itself (`info`), and a
method to obtain a mount-capable handle which may fail with the worker's own
error (`mounter`, the result `VolumeMounter` would return).  `id` identifies
the worker so that run/stop bookkeeping can refer to it. -/
structure InstanceManager where
  id : Nat
  allocID : String
  info : PluginInfo
  mounter : Except String Nat
deriving DecidableEq

/-- Modelled from the spec: `needsReplacement` is the worker's predicate for
"should this running instance be replaced by a newer descriptor"; per the
spec's data model, a changed descriptor for the same (name, ownerID) pair
represents a replacement, so the predicate holds exactly when the new
descriptor differs from the stored one. -/
def InstanceManager.needsReplacement (m : InstanceManager) (p : PluginInfo) : Bool :=
  decide (m.info ≠ p)

/-- Modelled from the spec: `newInstanceManager` builds a worker from a
descriptor; the worker's ownerID is the descriptor's.  A fresh worker cannot
yet provide a mount handle (it becomes healthy asynchronously), so its
`mounter` reports the worker's own error. -/
def newInstanceManager (id : Nat) (p : PluginInfo) : InstanceManager :=
  { id := id, allocID := p.allocID, info := p, mounter := Except.error "instance not ready" }

/-- The instance tracking table: `map[ptype]map[name]*list.List` flattened to
an association list keyed by (ptype, name).  The head of a group is the
front of the `container/list` list. -/
def Table : Type := List ((String × String) × List InstanceManager)

instance : DecidableEq Table := fun a b => List.hasDecEq a b

/-- Lookup of a group; absent keys behave like Go's zero value (and like an
empty list, which is observationally identical for every manager operation). -/
def lookupGroup : Table → String × String → List InstanceManager
  | [], _ => []
  | (k, g) :: rest, key => if key = k then g else lookupGroup rest key

/-- Whether the inner map has the key (`instances, ok := instancesByType[name]`). -/
def hasKey : Table → String × String → Bool
  | [], _ => false
  | (k, _) :: rest, key => if key = k then true else hasKey rest key

/-- Store a group under a key, keeping keys unique (Go map assignment, or the
in-place mutation of a `*list.List` already stored in the map). -/
def updateGroup : Table → String × String → List InstanceManager → Table
  | [], key, g => [(key, g)]
  | (k, g0) :: rest, key, g =>
    if key = k then (key, g) :: rest else (k, g0) :: updateGroup rest key g

/-- All instance managers tracked anywhere in the table (the iteration of
`Shutdown` over every plugin map and every list). -/
def allManagers (t : Table) : List InstanceManager :=
  (t.map Prod.snd).flatten

/-- Names present under a plugin type (the `range instancesByType` iteration
of `resyncPluginsFromRegistry`). -/
def namesForType (t : Table) (ptype : String) : List String :=
  (t.filter (fun kv => kv.1.1 = ptype)).map (fun kv => kv.1.2)

/-- The csiManager state: the tracking table plus run/stop bookkeeping and
the run-loop liveness flag. -/
structure CState where
  nextId : Nat
  instances : Table
  started : List Nat
  stopped : List Nat
  loopExited : Bool
deriving DecidableEq

/-- The manager as built by `New`: an empty tracking table, no workers, loop
not yet exited. -/
def initialState : CState :=
  { nextId := 0, instances := [], started := [], stopped := [], loopExited := false }

/-- `findOwner aid g` mirrors ensureInstance's scan
`for e := instances.Front(); e != nil; e = e.Next()` for the first element
with `instance.allocID == plugin.AllocID`: it returns that element together
with the rest of the group in order (which is exactly the group after
`MoveToFront` minus the new front), or none when the scan falls through. -/
def findOwner (aid : String) : List InstanceManager → Option (InstanceManager × List InstanceManager)
  | [] => none
  | m :: rest =>
    if m.allocID = aid then some (m, rest)
    else
      match findOwner aid rest with
      | some (x, rest2) => some (x, m :: rest2)
      | none => none

/-- `ensureInstance` (manager.go).  Faithful to the source, including the slip
in the fall-through path: when the (ptype, name) group was absent, the code
does `instances = list.New()` and `instances.PushFront(mgr)` but never stores
the fresh list back into the map (`instancesByType[name] = instances` appears
only inside the matched-owner branch), so the new worker is started yet the
table is left unchanged.  When the group was present, `PushFront` mutates the
list already stored in the map and is therefore visible.  In the matched-owner
branch, `needsReplacement` swaps a freshly run worker into the element
(`e.Value = mgr`) without stopping the old one, and `MoveToFront` promotes the
element. -/
def ensureInstance (c : CState) (p : PluginInfo) : CState :=
  let key := (p.ptype, p.name)
  let g := lookupGroup c.instances key
  match findOwner p.allocID g with
  | some (m, rest) =>
    if m.needsReplacement p then
      { c with
        nextId := c.nextId + 1
        started := c.nextId :: c.started
        instances := updateGroup c.instances key (newInstanceManager c.nextId p :: rest) }
    else
      { c with instances := updateGroup c.instances key (m :: rest) }
  | none =>
    if hasKey c.instances key then
      { c with
        nextId := c.nextId + 1
        started := c.nextId :: c.started
        instances := updateGroup c.instances key (newInstanceManager c.nextId p :: g) }
    else
      { c with
        nextId := c.nextId + 1
        started := c.nextId :: c.started }

/-- `removeFirstMatch aid g` mirrors ensureNoInstance's loop: it walks the
group and, at the first element with `instance.allocID == plugin.AllocID`,
shuts it down and removes it.  `container/list.Remove(e)` clears `e`'s list
pointer, so the loop's next step `e = e.Next()` yields nil and the iteration
ends there: elements after the first match are never visited.  Returns the
removed element (if any) and the resulting group. -/
def removeFirstMatch (aid : String) : List InstanceManager → Option InstanceManager × List InstanceManager
  | [] => (none, [])
  | m :: rest =>
    if m.allocID = aid then (some m, rest)
    else
      let res := removeFirstMatch aid rest
      (res.1, m :: res.2)

/-- `ensureNoInstance` (manager.go): look up the group for the descriptor's
(ptype, name); shut down and remove the first entry whose allocID matches
(see `removeFirstMatch`); no-op when the group is absent or nothing matches. -/
def ensureNoInstance (c : CState) (p : PluginInfo) : CState :=
  match removeFirstMatch p.allocID (lookupGroup c.instances (p.ptype, p.name)) with
  | (some m, g2) =>
    { c with
      instances := updateGroup c.instances (p.ptype, p.name) g2
      stopped := m.id :: c.stopped }
  | (none, _) => c

/-- The spec's description of `remove`: delete every entry of the group whose
ownerID matches (named per the spec's words, for comparison with the source's
first-match-only `removeFirstMatch`). -/
def removeAllMatches (aid : String) : List InstanceManager → List InstanceManager
  | [] => []
  | m :: rest =>
    if m.allocID = aid then removeAllMatches aid rest else m :: removeAllMatches aid rest

/-- A "csi-node" descriptor for plugin name "foo" owned by allocation "a". -/
def pA : PluginInfo :=
  { name := "foo", ptype := "csi-node", allocID := "a", connectionInfo := 0 }

/-- The same plugin occurrence as `pA` but with changed connection metadata: a
replacement descriptor for the same (name, ownerID) pair. -/
def pA2 : PluginInfo :=
  { name := "foo", ptype := "csi-node", allocID := "a", connectionInfo := 1 }

/-- A "csi-node" descriptor for plugin name "foo" owned by allocation "b". -/
def pB : PluginInfo :=
  { name := "foo", ptype := "csi-node", allocID := "b", connectionInfo := 0 }

/-- A "csi-controller" descriptor for plugin name "foo" owned by allocation "a". -/
def pCtrl : PluginInfo :=
  { name := "foo", ptype := "csi-controller", allocID := "a", connectionInfo := 0 }

/-- Worker 0, tracking `pA`. -/
def mA : InstanceManager := newInstanceManager 0 pA

/-- Worker 1, tracking `pB`. -/
def mB : InstanceManager := newInstanceManager 1 pB

/-- Worker 0, tracking the controller-role descriptor `pCtrl`. -/
def mCtrl : InstanceManager := newInstanceManager 0 pCtrl

/-- Worker 5 for `pA` whose volume mounter currently reports the worker's own
error. -/
def mBusy : InstanceManager :=
  { id := 5, allocID := "a", info := pA, mounter := Except.error "worker busy" }

/-- A manager tracking exactly worker `mA` under ("csi-node", "foo"). -/
def sOne : CState :=
  { nextId := 1, instances := [(("csi-node", "foo"), [mA])],
    started := [0], stopped := [], loopExited := false }

/-- A manager tracking workers `mA` (front, owner "a") and `mB` (owner "b")
under ("csi-node", "foo"). -/
def sTwo : CState :=
  { nextId := 2, instances := [(("csi-node", "foo"), [mA, mB])],
    started := [1, 0], stopped := [], loopExited := false }

/-- A manager whose sole tracked worker lives under role "csi-controller". -/
def sCtrl : CState :=
  { nextId := 1, instances := [(("csi-controller", "foo"), [mCtrl])],
    started := [0], stopped := [], loopExited := false }

/-- A manager whose front "csi-node" worker for "foo" is `mBusy`. -/
def sBusy : CState :=
  { nextId := 6, instances := [(("csi-node", "foo"), [mBusy])],
    started := [5], stopped := [], loopExited := false }

/-- `MounterForPlugin` (manager.go): consult the "csi-node" table only; when
the group is missing (`!ok`) or empty (`Front() == nil`), the code returns
`fmt.Errorf("TODO")` — both branches produce the same error value, collapsed
here into the empty-group case; otherwise ask the front instance manager for
its volume mounter and propagate its result. -/
def mounterForPlugin (c : CState) (pluginID : String) : Except String Nat :=
  match lookupGroup c.instances ("csi-node", pluginID) with
  | [] => Except.error "TODO"
  | m :: _ => m.mounter

/-- A registry update event (`dynamicplugins.PluginUpdateEvent`): the event
kind and the descriptor it concerns.  The kind strings follow the spec's
registered/deregistered event kinds. -/
structure PluginUpdateEvent where
  eventType : String
  info : PluginInfo
deriving DecidableEq

def EventTypeRegistered : String := "registered"

def EventTypeDeregistered : String := "deregistered"

/-- `handlePluginEvent` (manager.go): nil events are ignored; "registered"
events call ensureInstance, "deregistered" events call ensureNoInstance, and
unknown event kinds are logged and ignored. -/
def handlePluginEvent (c : CState) (ev : Option PluginUpdateEvent) : CState :=
  match ev with
  | none => c
  | some e =>
    if e.eventType = EventTypeRegistered then ensureInstance c e.info
    else if e.eventType = EventTypeDeregistered then ensureNoInstance c e.info
    else c

/-- The per-name cleanup loop of `resyncPluginsFromRegistry` for a name absent
from the registry listing: `for e := instances.Front(); e != nil; e = e.Next()`
calls `ensureNoInstance(mgr.info)` on the current element.  For an entry built
by `newInstanceManager` the first allocID match in its own group is the
element itself, so `ensureNoInstance` removes it — and `container/list.Remove`
nils the element's list pointer, making the loop's `e.Next()` nil and ending
the iteration.  Hence a single pass stops and removes only the front entry of
the group. -/
def resyncRemoveLoop (c : CState) (ptype name : String) : CState :=
  match lookupGroup c.instances (ptype, name) with
  | [] => c
  | m :: _ => ensureNoInstance c m.info

/-- `resyncPluginsFromRegistry` (manager.go): `plugins` is what
`registry.ListPlugins(ptype)` returned (the registry is an external
collaborator, so the listing is a parameter).  Every listed plugin is ensured
and its name recorded in `seen`; then every tracked name under `ptype` not in
`seen` goes through the cleanup loop (see `resyncRemoveLoop`). -/
def resyncPluginsFromRegistry (c : CState) (ptype : String) (plugins : List PluginInfo) : CState :=
  let seen := plugins.map PluginInfo.name
  let c1 := plugins.foldl ensureInstance c
  (namesForType c1.instances ptype).foldl
    (fun acc nm => if seen.contains nm then acc else resyncRemoveLoop acc ptype nm) c1

/-- The messages the run loop's `select` can wake on: the resync timer (with
the two registry listings the resyncs will observe), an event on either
role's subscription, or the shutdown context's cancellation. -/
inductive LoopMsg where
  | timerTick (controllerPlugins nodePlugins : List PluginInfo)
  | controllerEvent (ev : Option PluginUpdateEvent)
  | nodeEvent (ev : Option PluginUpdateEvent)
  | shutdownSignal
deriving DecidableEq

/-- One iteration of `runLoop` (manager.go).  Once the loop has returned
(`loopExited`), no further messages are processed — the `select` no longer
runs.  A timer tick resyncs "csi-controller" and then "csi-node"; events go
through `handlePluginEvent`; the shutdown signal makes the loop close
`shutdownCh` and return. -/
def runLoopStep (c : CState) (msg : LoopMsg) : CState :=
  if c.loopExited then c
  else
    match msg with
    | LoopMsg.timerTick cps nps =>
      resyncPluginsFromRegistry (resyncPluginsFromRegistry c "csi-controller" cps) "csi-node" nps
    | LoopMsg.controllerEvent ev => handlePluginEvent c ev
    | LoopMsg.nodeEvent ev => handlePluginEvent c ev
    | LoopMsg.shutdownSignal => { c with loopExited := true }

/-- The observable steps of `Shutdown` (manager.go), in program order. -/
inductive ShutdownAction where
  | signalCancel
  | waitLoopExit
  | stopWorker (id : Nat)
  | finished
deriving DecidableEq

/-- The sequence of steps `Shutdown` performs: cancel the run loop's context,
block on `<-c.shutdownCh` until the loop has exited, then stop every tracked
instance manager (fanned out, with `wg.Wait()` holding the return until every
stop has completed), then return. -/
def shutdownTrace (c : CState) : List ShutdownAction :=
  [ShutdownAction.signalCancel, ShutdownAction.waitLoopExit]
    ++ (allManagers c.instances).map (fun m => ShutdownAction.stopWorker m.id)
    ++ [ShutdownAction.finished]

/-- The state once `Shutdown` has returned: the loop has exited (confirmed via
`shutdownCh`) and `shutdown()` has been invoked — and has completed, thanks to
`wg.Wait()` — on every tracked instance manager. -/
def shutdownFinal (c : CState) : CState :=
  { c with
    loopExited := true
    stopped := (allManagers c.instances).map InstanceManager.id ++ c.stopped }

/-- `defaultPluginResyncPeriod` (manager.go), in seconds. -/
def defaultPluginResyncPeriod : Nat := 30

/-- The resync period `New` (manager.go) installs: the configured period, or
the default when the configuration left it zero (unset). -/
def newManagerResyncPeriod (configured : Nat) : Nat :=
  if configured = 0 then defaultPluginResyncPeriod else configured

/-- Delay before the (n+1)-st timer-driven resync pass of `runLoop`: the timer
is created with `time.NewTimer(0)` ("ensure we sync immediately in first
pass"), and after each pass it is `Reset(c.pluginResyncPeriod)`. -/
def timerDelayBeforeResync (period : Nat) : Nat → Nat
  | 0 => 0
  | _ + 1 => period


/-- A match-free group passes through `removeFirstMatch` untouched. -/
theorem rfm_no_match (aid : String) :
    ∀ g : List InstanceManager, (∀ m ∈ g, m.allocID ≠ aid) →
      removeFirstMatch aid g = (none, g) := by
  intro g
  induction g with
  | nil => intro _; rfl
  | cons x rest ih =>
    intro h
    have hx : x.allocID ≠ aid := h x (List.mem_cons_self x rest)
    simp only [removeFirstMatch, if_neg hx, ih (fun m hm => h m (List.mem_cons_of_mem x hm))]

/-- When `removeFirstMatch` removes nothing, the group is unchanged. -/
theorem rfm_none_snd (aid : String) :
    ∀ g : List InstanceManager, (removeFirstMatch aid g).1 = none →
      (removeFirstMatch aid g).2 = g := by
  intro g
  induction g with
  | nil => intro _; rfl
  | cons x rest ih =>
    intro h
    by_cases hx : x.allocID = aid
    · simp [removeFirstMatch, hx] at h
    · simp only [removeFirstMatch, if_neg hx] at h ⊢
      rw [ih h]

/-- When `removeFirstMatch` removes nothing, no entry of the group matches. -/
theorem rfm_none_no_match (aid : String) :
    ∀ g : List InstanceManager, (removeFirstMatch aid g).1 = none →
      ∀ m ∈ g, m.allocID ≠ aid := by
  intro g
  induction g with
  | nil => intro _ m hm; cases hm
  | cons x rest ih =>
    intro h m hm
    by_cases hx : x.allocID = aid
    · simp [removeFirstMatch, hx] at h
    · simp only [removeFirstMatch, if_neg hx] at h
      rcases List.mem_cons.mp hm with rfl | hm2
      · exact hx
      · exact ih h m hm2

/-- Whatever `removeFirstMatch` removes was in the group and matched. -/
theorem rfm_fst_some (aid : String) :
    ∀ (g : List InstanceManager) (m : InstanceManager),
      (removeFirstMatch aid g).1 = some m → m ∈ g ∧ m.allocID = aid := by
  intro g
  induction g with
  | nil => intro m h; simp [removeFirstMatch] at h
  | cons x rest ih =>
    intro m h
    by_cases hx : x.allocID = aid
    · simp only [removeFirstMatch, if_pos hx, Option.some.injEq] at h
      exact ⟨by rw [← h]; exact List.mem_cons_self x rest, by rw [← h]; exact hx⟩
    · simp only [removeFirstMatch, if_neg hx] at h
      have := ih m h
      exact ⟨List.mem_cons_of_mem x this.1, this.2⟩

/-- An entry present before and absent after `removeFirstMatch` is exactly the
entry the pass removed. -/
theorem rfm_removed_of_gone (aid : String) :
    ∀ (g : List InstanceManager) (m : InstanceManager),
      m ∈ g → m ∉ (removeFirstMatch aid g).2 →
      (removeFirstMatch aid g).1 = some m := by
  intro g
  induction g with
  | nil => intro m hm; cases hm
  | cons x rest ih =>
    intro m hm hg
    by_cases hx : x.allocID = aid
    · simp only [removeFirstMatch, if_pos hx] at hg ⊢
      rcases List.mem_cons.mp hm with rfl | hm2
      · rfl
      · exact absurd hm2 hg
    · simp only [removeFirstMatch, if_neg hx, List.mem_cons, not_or] at hg ⊢
      rcases List.mem_cons.mp hm with rfl | hm2
      · exact absurd rfl hg.1
      · exact ih m hm2 hg.2

/-- A match-free group passes through the spec's remove-every-match untouched. -/
theorem ram_no_match (aid : String) :
    ∀ g : List InstanceManager, (∀ m ∈ g, m.allocID ≠ aid) →
      removeAllMatches aid g = g := by
  intro g
  induction g with
  | nil => intro _; rfl
  | cons x rest ih =>
    intro h
    have hx : x.allocID ≠ aid := h x (List.mem_cons_self x rest)
    simp only [removeAllMatches, if_neg hx]
    rw [ih (fun m hm => h m (List.mem_cons_of_mem x hm))]

/-- On a group with pairwise-distinct owner ids, removing the first match
coincides with the spec's removing every match. -/
theorem rfm_snd_nodup (aid : String) :
    ∀ g : List InstanceManager, (g.map InstanceManager.allocID).Nodup →
      (removeFirstMatch aid g).2 = removeAllMatches aid g := by
  intro g
  induction g with
  | nil => intro _; rfl
  | cons x rest ih =>
    intro hnd
    rw [List.map_cons, List.nodup_cons] at hnd
    by_cases hx : x.allocID = aid
    · simp only [removeFirstMatch, removeAllMatches, if_pos hx]
      refine (ram_no_match aid rest ?_).symm
      intro m hm hma
      exact hnd.1 (by rw [hx, ← hma]; exact List.mem_map_of_mem InstanceManager.allocID hm)
    · simp only [removeFirstMatch, removeAllMatches, if_neg hx]
      rw [ih hnd.2]

/-- On a group with pairwise-distinct owner ids, the entry removed for a
matching owner is any (hence the unique) matching entry. -/
theorem rfm_fst_of_match_nodup (aid : String) :
    ∀ (g : List InstanceManager) (m : InstanceManager),
      (g.map InstanceManager.allocID).Nodup → m ∈ g → m.allocID = aid →
      (removeFirstMatch aid g).1 = some m := by
  intro g
  induction g with
  | nil => intro m _ hm; cases hm
  | cons x rest ih =>
    intro m hnd hm hma
    rw [List.map_cons, List.nodup_cons] at hnd
    by_cases hx : x.allocID = aid
    · simp only [removeFirstMatch, if_pos hx, Option.some.injEq]
      rcases List.mem_cons.mp hm with rfl | hm2
      · rfl
      · exact absurd (by rw [hx, ← hma]; exact List.mem_map_of_mem InstanceManager.allocID hm2) hnd.1
    · simp only [removeFirstMatch, if_neg hx]
      rcases List.mem_cons.mp hm with rfl | hm2
      · exact absurd hma hx
      · exact ih m hnd.2 hm2 hma

/-- Looking up the key just stored yields the stored group. -/
theorem lookup_update_self :
    ∀ (t : Table) (k : String × String) (g : List InstanceManager),
      lookupGroup (updateGroup t k g) k = g := by
  intro t k g
  induction t with
  | nil => simp [updateGroup, lookupGroup]
  | cons kv rest ih =>
    obtain ⟨k0, g0⟩ := kv
    by_cases hk : k = k0
    · simp [updateGroup, lookupGroup, hk]
    · simp only [updateGroup, if_neg hk, lookupGroup, ih]

/-- Claim C1, counterexample: in a manager tracking worker `mA` for owner "a",
an `ensureInstance` with a changed descriptor for the same owner (so that
`needsReplacement` is true) displaces `mA` from the table — yet `mA`'s stop is
never invoked, and both the old worker (id 0) and its replacement (id 1) have
been started, so two Instance Workers for the same (role, name, ownerID)
triple run simultaneously. -/
theorem c1_swap_leaves_old_worker_running :
    mA ∈ lookupGroup sOne.instances ("csi-node", "foo")
    ∧ mA ∉ lookupGroup (ensureInstance sOne pA2).instances ("csi-node", "foo")
    ∧ (0 : Nat) ∉ (ensureInstance sOne pA2).stopped
    ∧ (0 : Nat) ∈ (ensureInstance sOne pA2).started
    ∧ (1 : Nat) ∈ (ensureInstance sOne pA2).started := by decide

/-- Claim C1 (amended): every tracked entry removed from the table by
`ensureNoInstance` — the remove path, which is also what resync's cleanup
invokes — has had its worker's stop invoked, and final shutdown invokes stop
on every tracked worker; a worker displaced in place by ensure's
needsReplacement swap, however, is not stopped (see the counterexample). -/
theorem c1_amended_removal_paths_stop_workers
    (c : CState) (p : PluginInfo) (m : InstanceManager) :
    (m ∈ lookupGroup c.instances (p.ptype, p.name) →
      m ∉ lookupGroup (ensureNoInstance c p).instances (p.ptype, p.name) →
      m.id ∈ (ensureNoInstance c p).stopped)
    ∧ (m ∈ allManagers c.instances → m.id ∈ (shutdownFinal c).stopped) := by
  constructor
  · intro hmem hgone
    rcases hr : removeFirstMatch p.allocID (lookupGroup c.instances (p.ptype, p.name))
      with ⟨r, g2⟩
    cases r with
    | none =>
      have hfst : (removeFirstMatch p.allocID (lookupGroup c.instances (p.ptype, p.name))).1
          = none := by rw [hr]
      have hE : ensureNoInstance c p = c := by
        unfold ensureNoInstance
        rw [hr]
      rw [hE] at hgone
      exact absurd hmem hgone
    | some m2 =>
      have hE : ensureNoInstance c p
          = { c with
              instances := updateGroup c.instances (p.ptype, p.name) g2
              stopped := m2.id :: c.stopped } := by
        unfold ensureNoInstance
        rw [hr]
      rw [hE] at hgone ⊢
      simp only [lookup_update_self] at hgone
      have hsnd : m ∉ (removeFirstMatch p.allocID (lookupGroup c.instances (p.ptype, p.name))).2 := by
        rw [hr]
        exact hgone
      have := rfm_removed_of_gone p.allocID (lookupGroup c.instances (p.ptype, p.name)) m hmem hsnd
      rw [hr] at this
      have hm2 : m2 = m := Option.some.inj this
      simp only [hm2]
      exact List.mem_cons_self m.id c.stopped
  · intro hmem
    simp only [shutdownFinal, List.mem_append]
    exact Or.inl (List.mem_map_of_mem InstanceManager.id hmem)

/-- Claim C1 (amended), witness: removing owner "a" from `sOne` stops worker 0,
and shutting `sOne` down stops worker 0. -/
theorem c1_amended_witness :
    (0 : Nat) ∈ (ensureNoInstance sOne pA).stopped
    ∧ (0 : Nat) ∈ (shutdownFinal sOne).stopped :=
  ⟨(c1_amended_removal_paths_stop_workers sOne pA mA).1 (by decide) (by decide),
   (c1_amended_removal_paths_stop_workers sOne pA mA).2 (by decide)⟩

/-- Claim C2: with entries for owners "a" (front, worker 0) and "b" (worker 1)
under ("csi-node", "foo"), a full resync whose registry listing omits the name
entirely stops and removes only the front entry (owner "a"); owner "b"'s entry
survives the pass unstopped — the code removes the front element, after which
`container/list` iteration ends, contradicting the claim that both entries are
removed. -/
theorem c2_resync_removes_only_front_entry :
    lookupGroup (resyncPluginsFromRegistry sTwo "csi-node" []).instances ("csi-node", "foo") = [mB]
    ∧ (0 : Nat) ∈ (resyncPluginsFromRegistry sTwo "csi-node" []).stopped
    ∧ (1 : Nat) ∉ (resyncPluginsFromRegistry sTwo "csi-node" []).stopped := by decide

/-- Claim C3: querying a plugin name with no tracked instance yields the
placeholder error "TODO", not an error stating "plugin not found"; when a
front entry exists, the worker's own mounter result (here the error
"worker busy") is propagated unchanged. -/
theorem c3_not_found_error_is_todo :
    mounterForPlugin initialState "foo" = Except.error "TODO"
    ∧ mounterForPlugin sBusy "foo" = Except.error "worker busy" := by decide

/-- Claim C5: calling ensure twice with the identical descriptor for the same
owner on a fresh manager yields zero tracked entries (the newly created group
is never stored into the table), and the second call creates and starts a
second worker (ids 0 and 1 both started) — contradicting both halves of the
claim. -/
theorem c5_double_ensure_tracks_nothing :
    (ensureInstance (ensureInstance initialState pA) pA).instances = []
    ∧ (ensureInstance (ensureInstance initialState pA) pA).started = [1, 0] := by decide

/-- Claim C7: ensure for owner "a" then owner "b" under the same (role, name)
yields an empty table — no entry is tracked at all (new groups are never
stored), instead of the two entries the claim requires. -/
theorem c7_two_owners_not_tracked :
    (ensureInstance (ensureInstance initialState pA) pB).instances = []
    ∧ lookupGroup (ensureInstance (ensureInstance initialState pA) pB).instances
        ("csi-node", "foo") = [] := by decide

/-- Claim C4: Shutdown's step sequence begins with signalling cancellation and
then blocking for the loop's confirmed exit; every tracked worker's stop
appears strictly after those two steps and before the final return, and once
Shutdown has returned every worker tracked at call time has had stop invoked
and completed; moreover no run-loop message is processed once the loop's exit
is recorded. -/
theorem c4_shutdown_order_and_completeness (c : CState) :
    (shutdownTrace c).take 2 = [ShutdownAction.signalCancel, ShutdownAction.waitLoopExit]
    ∧ (shutdownTrace c).getLast? = some ShutdownAction.finished
    ∧ (∀ m ∈ allManagers c.instances,
        ShutdownAction.stopWorker m.id ∈ (shutdownTrace c).drop 2
        ∧ m.id ∈ (shutdownFinal c).stopped)
    ∧ (∀ msg : LoopMsg, runLoopStep (shutdownFinal c) msg = shutdownFinal c) := by
  refine ⟨rfl, ?_, ?_, ?_⟩
  · show (([ShutdownAction.signalCancel, ShutdownAction.waitLoopExit]
        ++ (allManagers c.instances).map (fun m => ShutdownAction.stopWorker m.id))
        ++ [ShutdownAction.finished]).getLast? = some ShutdownAction.finished
    rw [List.getLast?_concat]
  · intro m hm
    constructor
    · show ShutdownAction.stopWorker m.id
        ∈ ((allManagers c.instances).map (fun m => ShutdownAction.stopWorker m.id)
            ++ [ShutdownAction.finished])
      exact List.mem_append_left _ (List.mem_map_of_mem (fun m => ShutdownAction.stopWorker m.id) hm)
    · simp only [shutdownFinal, List.mem_append]
      exact Or.inl (List.mem_map_of_mem InstanceManager.id hm)
  · intro msg
    simp [runLoopStep, shutdownFinal]

/-- Claim C4, witness: shutting down `sOne` (which tracks worker 0) yields a
trace whose post-wait segment contains worker 0's stop, and worker 0 is
stopped in the final state. -/
theorem c4_shutdown_witness :
    ShutdownAction.stopWorker 0 ∈ (shutdownTrace sOne).drop 2
    ∧ (0 : Nat) ∈ (shutdownFinal sOne).stopped :=
  (c4_shutdown_order_and_completeness sOne).2.2.1 mA (by decide)

/-- Claim C6: on a group whose owner ids are pairwise distinct (the manager's
per-triple uniqueness invariant), the remove operation deletes every entry of
the (role, name) group whose ownerID matches and has invoked (and completed)
the stop of each matching entry's worker; when nothing matches, the operation
leaves the whole state unchanged. -/
theorem c6_remove_matching_entries (c : CState) (p : PluginInfo)
    (hnd : ((lookupGroup c.instances (p.ptype, p.name)).map InstanceManager.allocID).Nodup) :
    lookupGroup (ensureNoInstance c p).instances (p.ptype, p.name)
      = removeAllMatches p.allocID (lookupGroup c.instances (p.ptype, p.name))
    ∧ (∀ m ∈ lookupGroup c.instances (p.ptype, p.name),
        m.allocID = p.allocID → m.id ∈ (ensureNoInstance c p).stopped)
    ∧ ((∀ m ∈ lookupGroup c.instances (p.ptype, p.name), m.allocID ≠ p.allocID) →
        ensureNoInstance c p = c) := by
  rcases hr : removeFirstMatch p.allocID (lookupGroup c.instances (p.ptype, p.name))
    with ⟨r, g2⟩
  cases r with
  | none =>
    have hE : ensureNoInstance c p = c := by
      unfold ensureNoInstance
      rw [hr]
    have hfst : (removeFirstMatch p.allocID (lookupGroup c.instances (p.ptype, p.name))).1
        = none := by rw [hr]
    refine ⟨?_, ?_, fun _ => hE⟩
    · rw [hE]
      exact (ram_no_match p.allocID _ (rfm_none_no_match p.allocID _ hfst)).symm
    · intro m hm hma
      exact absurd hma (rfm_none_no_match p.allocID _ hfst m hm)
  | some m2 =>
    have hE : ensureNoInstance c p
        = { c with
            instances := updateGroup c.instances (p.ptype, p.name) g2
            stopped := m2.id :: c.stopped } := by
      unfold ensureNoInstance
      rw [hr]
    have hsnd : (removeFirstMatch p.allocID (lookupGroup c.instances (p.ptype, p.name))).2
        = g2 := by rw [hr]
    refine ⟨?_, ?_, ?_⟩
    · rw [hE]
      simp only [lookup_update_self]
      rw [← hsnd, rfm_snd_nodup p.allocID _ hnd]
    · intro m hm hma
      have hfst := rfm_fst_of_match_nodup p.allocID _ m hnd hm hma
      rw [hr] at hfst
      have hm2 : m2 = m := Option.some.inj hfst
      rw [hE]
      simp only [hm2]
      exact List.mem_cons_self m.id c.stopped
    · intro hnone
      have := rfm_no_match p.allocID _ hnone
      rw [hr] at this
      cases this

/-- Claim C6, witness: removing owner "a" from the two-entry group of `sTwo`
deletes exactly the matching entry, stops worker 0, and a remove for an
absent owner leaves the state unchanged. -/
theorem c6_remove_witness :
    lookupGroup (ensureNoInstance sTwo pA).instances (pA.ptype, pA.name)
      = removeAllMatches pA.allocID (lookupGroup sTwo.instances (pA.ptype, pA.name))
    ∧ (0 : Nat) ∈ (ensureNoInstance sTwo pA).stopped :=
  ⟨(c6_remove_matching_entries sTwo pA (by decide)).1,
   (c6_remove_matching_entries sTwo pA (by decide)).2.1 mA (by decide) rfl⟩

/-- Claim C8: the first timer-driven resync fires with zero delay (the timer
is created expired) and every later one waits exactly one resync period; a
zero (unset) configured period becomes the 30-second default while any
nonzero configured value is kept; and a timer tick performs the full resync of
both roles, "csi-controller" then "csi-node". -/
theorem c8_first_resync_immediate_default_period :
    (∀ period : Nat, timerDelayBeforeResync period 0 = 0)
    ∧ (∀ period n : Nat, timerDelayBeforeResync period (n + 1) = period)
    ∧ newManagerResyncPeriod 0 = 30
    ∧ (∀ p : Nat, p ≠ 0 → newManagerResyncPeriod p = p)
    ∧ (∀ (c : CState) (cps nps : List PluginInfo), c.loopExited = false →
        runLoopStep c (LoopMsg.timerTick cps nps)
          = resyncPluginsFromRegistry
              (resyncPluginsFromRegistry c "csi-controller" cps) "csi-node" nps) := by
  refine ⟨fun _ => rfl, fun _ _ => rfl, rfl, ?_, ?_⟩
  · intro p hp
    simp [newManagerResyncPeriod, hp]
  · intro c cps nps h
    simp [runLoopStep, h]

/-- Claim C8, witness: a configured period of 7 is kept, and a timer tick on
the fresh manager runs the controller resync followed by the node resync. -/
theorem c8_timer_witness :
    newManagerResyncPeriod 7 = 7
    ∧ runLoopStep initialState (LoopMsg.timerTick [] [])
        = resyncPluginsFromRegistry
            (resyncPluginsFromRegistry initialState "csi-controller" []) "csi-node" [] :=
  ⟨c8_first_resync_immediate_default_period.2.2.2.1 7 (by decide),
   c8_first_resync_immediate_default_period.2.2.2.2 initialState [] [] rfl⟩

/-- Claim C10: the query surface takes no role parameter and consults only the
"csi-node" table — its result is determined by the ("csi-node", name) group
alone, and whenever that group is empty the query fails, regardless of what is
tracked under "csi-controller". -/
theorem c10_query_consults_node_table_only (c c2 : CState) (pluginID : String) :
    (lookupGroup c.instances ("csi-node", pluginID)
        = lookupGroup c2.instances ("csi-node", pluginID) →
      mounterForPlugin c pluginID = mounterForPlugin c2 pluginID)
    ∧ (lookupGroup c.instances ("csi-node", pluginID) = [] →
        mounterForPlugin c pluginID = Except.error "TODO") := by
  constructor
  · intro h
    unfold mounterForPlugin
    rw [h]
  · intro h
    unfold mounterForPlugin
    rw [h]

/-- Claim C10, witness: a manager whose sole instance of "foo" is tracked
under role "csi-controller" answers the query for "foo" with the not-found
error — the controller-role instance is never returned. -/
theorem c10_query_witness :
    mounterForPlugin sCtrl "foo" = Except.error "TODO" :=
  (c10_query_consults_node_table_only sCtrl sCtrl "foo").2 (by decide)
